import Mathlib

/-!
Shallow embedding of the shenfun core selected by the specification: the
Jacobi-family basis classes (`src/shenfun/jacobi/bases.py`) and the symbolic
form algebra (`src/shenfun/forms/arguments.py`).

Conventions of the embedding:
* numpy coefficient arrays of length `N` become functions `ℕ → ℚ` (entries
  beyond the array are irrelevant and the theorems restrict indices to `< N`);
* Vandermonde-like matrices are embedded pointwise in the evaluation point
  `x : ℚ`, one column function `ℕ → ℚ` per point;
* Python objects become structures, Python `assert` failures become `none`
  of an `Option` result;
* external collaborators of the core (scipy, sympy, the quadrature backend)
  are either modelled by an explicit definition or abstracted as a function
  parameter, as noted in each doc string.
-/

/-- Value of the Jacobi polynomial at `x` for degree `n` and parameters
`α`, `β`, by the standard three-term recurrence. Modelled from the spec:
this is the external polynomial evaluator `scipy.special.eval_jacobi`
consumed by `jacobi/bases.py` (spec §6, an external collaborator); the
theorems below depend only on how the repository code calls it. -/
def jacobiRec (α β x : ℚ) : ℕ → ℚ
  | 0 => 1
  | 1 => (α + 1) + (α + β + 2) * (x - 1) / 2
  | n + 2 =>
    let m : ℚ := (n : ℚ) + 2
    let c : ℚ := 2 * m + α + β
    (((c - 1) * ((c * (c - 2)) * x + (α ^ 2 - β ^ 2))) * jacobiRec α β x (n + 1)
        - 2 * (m + α - 1) * (m + β - 1) * c * jacobiRec α β x n)
      / (2 * m * (m + α + β) * (c - 2))

/-- Slice assignment `a[lo:hi] = z` on a 1-D array embedded as `ℕ → ℚ`:
position `j` of the slice window receives `z (j - lo)`. -/
def setSlice (a : ℕ → ℚ) (lo hi : ℕ) (z : ℕ → ℚ) : ℕ → ℚ :=
  fun j => if lo ≤ j ∧ j < hi then z (j - lo) else a j

/-- Slice update `a[lo:hi] += z`. -/
def addSlice (a : ℕ → ℚ) (lo hi : ℕ) (z : ℕ → ℚ) : ℕ → ℚ :=
  fun j => if lo ≤ j ∧ j < hi then a j + z (j - lo) else a j

/-- Slice update `a[lo:hi] -= z`. -/
def subSlice (a : ℕ → ℚ) (lo hi : ℕ) (z : ℕ → ℚ) : ℕ → ℚ :=
  fun j => if lo ≤ j ∧ j < hi then a j - z (j - lo) else a j

/-- `ShenDirichletBasis.to_ortho` (src/shenfun/jacobi/bases.py lines 431-441):
`z = input_array[0:-2] * 2*(k+1)/(2*k+3)`, then `output_array[0:-2] = z` and
`output_array[2:] -= z`, starting from a zero output array. The wavenumber
array `k` is Modelled from the spec: `SpectralBase.wavenumbers`
(shenfun/spectralbase.py, not under src) yields the mode numbers
`0, …, N-3` of the free slice, which is forced by the array shapes in the
source expression. -/
def ShenDirichletBasis.to_ortho (N : ℕ) (u : ℕ → ℚ) : ℕ → ℚ :=
  let z : ℕ → ℚ := fun k => u k * 2 * ((k : ℚ) + 1) / (2 * (k : ℚ) + 3)
  subSlice (setSlice (fun _ => 0) 0 (N - 2) z) 2 N z

/-- C1: for the Jacobi `ShenDirichletBasis` of size `N`, `to_ortho` gives every
orthogonal mode `j < N` exactly the contribution `+c_j·u[j]` (when `j` is a
free mode, `j < N-2`) plus `-c_{j-2}·u[j-2]` (when `j ≥ 2`), with
`c_k = 2(k+1)/(2k+3)`, and nothing else. -/
theorem dirichlet_to_ortho_modes (N : ℕ) (u : ℕ → ℚ) (j : ℕ) (hj : j < N) :
    ShenDirichletBasis.to_ortho N u j =
      (if j < N - 2 then 2 * ((j : ℚ) + 1) / (2 * (j : ℚ) + 3) * u j else 0)
        - (if 2 ≤ j then
            2 * (((j - 2 : ℕ) : ℚ) + 1) / (2 * ((j - 2 : ℕ) : ℚ) + 3) * u (j - 2)
          else 0) := by
  unfold ShenDirichletBasis.to_ortho subSlice setSlice
  by_cases h2 : 2 ≤ j <;> by_cases hfree : j < N - 2 <;>
    simp only [h2, hfree, hj, and_true, true_and, and_false, false_and, if_true,
      if_false, Nat.zero_le, Nat.sub_zero] <;>
    ring

/-- Concrete check of `dirichlet_to_ortho_modes` at `N = 5`, `u i = i`,
`j = 3`: the only contribution is `-c_1·u[1] = -4/5`. -/
theorem dirichlet_to_ortho_modes_checked :
    ShenDirichletBasis.to_ortho 5 (fun i => (i : ℚ)) 3 = -(4 / 5) := by
  have h := dirichlet_to_ortho_modes 5 (fun i => (i : ℚ)) 3 (by decide)
  rw [h]
  norm_num

/-- `ShenBiharmonicBasis.to_ortho` (src/shenfun/jacobi/bases.py lines 562-574):
with `k` the free-mode numbers `0, …, N-5` (Modelled from the spec:
`SpectralBase.wavenumbers`, shenfun/spectralbase.py, not under src),
`z = _factor0 * input_array[0:-4]`, then `output_array[0:-4] = z`,
`output_array[2:-2] += z*_factor1` and `output_array[4:] += z*_factor2`,
starting from a zero output array. -/
def ShenBiharmonicBasis.to_ortho (N : ℕ) (u : ℕ → ℚ) : ℕ → ℚ :=
  let factor0 : ℕ → ℚ := fun k =>
    4 * ((k : ℚ) + 2) * ((k : ℚ) + 1) / (2 * (k : ℚ) + 5) / (2 * (k : ℚ) + 3)
  let factor1 : ℕ → ℚ := fun k => -2 * (2 * (k : ℚ) + 5) / (2 * (k : ℚ) + 7)
  let factor2 : ℕ → ℚ := fun k => (2 * (k : ℚ) + 3) / (2 * (k : ℚ) + 7)
  let z : ℕ → ℚ := fun k => factor0 k * u k
  addSlice
    (addSlice (setSlice (fun _ => 0) 0 (N - 4) z) 2 (N - 2) (fun k => z k * factor1 k))
    4 N (fun k => z k * factor2 k)

/-- C2: for the Jacobi `ShenBiharmonicBasis` of size `N`, `to_ortho` spreads
input mode `k < N-4` over exactly the three orthogonal modes `k`, `k+2`, `k+4`
with coefficients `f0(k)`, `f0(k)·f1(k)`, `f0(k)·f2(k)` where
`f0(k) = 4(k+2)(k+1)/((2k+5)(2k+3))`, `f1(k) = -2(2k+5)/(2k+7)` and
`f2(k) = (2k+3)/(2k+7)`: every output mode `j < N` is the sum of the
contributions it receives from input modes `j`, `j-2` and `j-4`. -/
theorem biharmonic_to_ortho_modes (N : ℕ) (u : ℕ → ℚ) (j : ℕ) (hj : j < N) :
    ShenBiharmonicBasis.to_ortho N u j =
      (if j < N - 4 then
          4 * ((j : ℚ) + 2) * ((j : ℚ) + 1) / ((2 * (j : ℚ) + 5) * (2 * (j : ℚ) + 3)) * u j
        else 0)
      + (if 2 ≤ j ∧ j < N - 2 then
          4 * (((j - 2 : ℕ) : ℚ) + 2) * (((j - 2 : ℕ) : ℚ) + 1)
              / ((2 * ((j - 2 : ℕ) : ℚ) + 5) * (2 * ((j - 2 : ℕ) : ℚ) + 3))
            * (-2 * (2 * ((j - 2 : ℕ) : ℚ) + 5) / (2 * ((j - 2 : ℕ) : ℚ) + 7))
            * u (j - 2)
        else 0)
      + (if 4 ≤ j then
          4 * (((j - 4 : ℕ) : ℚ) + 2) * (((j - 4 : ℕ) : ℚ) + 1)
              / ((2 * ((j - 4 : ℕ) : ℚ) + 5) * (2 * ((j - 4 : ℕ) : ℚ) + 3))
            * ((2 * ((j - 4 : ℕ) : ℚ) + 3) / (2 * ((j - 4 : ℕ) : ℚ) + 7))
            * u (j - 4)
        else 0) := by
  unfold ShenBiharmonicBasis.to_ortho addSlice setSlice
  by_cases h4 : 4 ≤ j <;> by_cases h2 : 2 ≤ j ∧ j < N - 2 <;>
    by_cases hfree : j < N - 4 <;>
    simp only [h4, h2, hfree, hj, and_true, true_and, and_false, false_and,
      if_true, if_false, Nat.zero_le, Nat.sub_zero, div_div] <;>
    ring

/-- Concrete check of `biharmonic_to_ortho_modes` at `N = 8`, `u i = 1`,
`j = 4`: contributions from input modes `4` (not free: `4 ≥ N-4`, none),
`2` and `0`. -/
theorem biharmonic_to_ortho_modes_checked :
    ShenBiharmonicBasis.to_ortho 8 (fun _ => (1 : ℚ)) 4 =
      4 * 4 * 3 / (9 * 7) * (-2 * 9 / 11) + 4 * 2 * 1 / (5 * 3) * (3 / 7) := by
  have h := biharmonic_to_ortho_modes 8 (fun _ => (1 : ℚ)) 4 (by decide)
  rw [h]
  norm_num

/-- The product of `f` over `List.range k` equals the product over
`Finset.range k` (numpy's `np.prod` over a list comprehension versus the
closed-form finite product). -/
theorem listRange_map_prod (k : ℕ) (f : ℕ → ℚ) :
    ((List.range k).map f).prod = ∏ j in Finset.range k, f j := by
  induction k with
  | zero => simp
  | succ n ih => simp [List.range_succ, Finset.prod_range_succ, ih]

/-- `JacobiBase.jacobi` (src/shenfun/jacobi/bases.py lines 154-158), one
evaluation point: the Vandermonde matrix column `n` holds
`eval_jacobi(n, α, β, x)` for `n < N` and the matrix has no further columns
(embedded as `0`). -/
def JacobiBase.jacobi (x α β : ℚ) (N : ℕ) (n : ℕ) : ℚ :=
  if n < N then jacobiRec α β x n else 0

/-- `JacobiBase.derivative_jacobi` (src/shenfun/jacobi/bases.py lines
160-169), one evaluation point: `V = jacobi(x, α+k, β+k, N)`; for `k > 0`
the result columns `j ∈ [k, N)` hold `(dj/2^k)·V[j-k]` with
`dj = prod([j+α+β+1+i for i in range(k)])`, all other columns stay at the
zero initialisation; for `k = 0` the result is `V` itself. -/
def JacobiBase.derivative_jacobi (N : ℕ) (x α β : ℚ) (k : ℕ) : ℕ → ℚ :=
  let V : ℕ → ℚ := JacobiBase.jacobi x (α + (k : ℚ)) (β + (k : ℚ)) N
  if 0 < k then
    fun j =>
      if k ≤ j ∧ j < N then
        (((List.range k).map (fun i : ℕ => (j : ℚ) + α + β + 1 + (i : ℚ))).prod / 2 ^ k)
          * V (j - k)
      else 0
  else V

/-- Degree argument that `JacobiBase.evaluate_basis_derivative` passes to the
external evaluator `eval_jacobi`: the Python expression `i - k`
(src/shenfun/jacobi/bases.py line 204), an integer that is negative
whenever `i < k`. -/
def evaluate_basis_derivative_degree_arg (i k : ℕ) : ℤ :=
  (i : ℤ) - (k : ℤ)

/-- The external evaluator `scipy.special.eval_jacobi` on an integer degree.
Modelled from the spec: for a negative degree the identity
`J_{negative} ≡ 0` applies (spec §4.1 edge case and §7 numeric edge cases),
for a non-negative degree it is the Jacobi polynomial `jacobiRec`. -/
def eval_jacobiInt (n : ℤ) (α β x : ℚ) : ℚ :=
  if 0 ≤ n then jacobiRec α β x n.toNat else 0

/-- `JacobiBase.evaluate_basis_derivative` (src/shenfun/jacobi/bases.py lines
199-208): `dj = prod([i+α+β+1+j for j in range(k)])`, returning
`dj/2^k · eval_jacobi(i-k, α+k, β+k, x)` — note that the degree `i-k` is
handed to the evaluator as is. -/
def JacobiBase.evaluate_basis_derivative (α β x : ℚ) (i k : ℕ) : ℚ :=
  let dj : ℚ := ((List.range k).map (fun j : ℕ => (i : ℚ) + α + β + 1 + (j : ℚ))).prod
  dj / 2 ^ k * eval_jacobiInt (evaluate_basis_derivative_degree_arg i k) (α + (k : ℚ)) (β + (k : ℚ)) x

/-- C3: for every `i ≥ k ≥ 0` both Jacobi derivative entry points compute the
`k`-th derivative of `J_i^{(α,β)}` at `x` as `J_{i-k}^{(α+k,β+k)}(x)` times
the factor `(∏_{j<k} (i+α+β+1+j)) / 2^k`, the factor being the finite
product over `j` (the gamma-ratio form is absent from the embedded code,
mirroring the commented-out gamma line of the source). -/
theorem jacobi_derivative_factor (α β x : ℚ) (i k N : ℕ)
    (hki : k ≤ i) (hiN : i < N) :
    JacobiBase.evaluate_basis_derivative α β x i k =
        (∏ j in Finset.range k, ((i : ℚ) + α + β + 1 + (j : ℚ))) / 2 ^ k
          * jacobiRec (α + (k : ℚ)) (β + (k : ℚ)) x (i - k)
      ∧ JacobiBase.derivative_jacobi N x α β k i =
        (∏ j in Finset.range k, ((i : ℚ) + α + β + 1 + (j : ℚ))) / 2 ^ k
          * jacobiRec (α + (k : ℚ)) (β + (k : ℚ)) x (i - k) := by
  constructor
  · unfold JacobiBase.evaluate_basis_derivative eval_jacobiInt
      evaluate_basis_derivative_degree_arg
    have h0 : (0 : ℤ) ≤ (i : ℤ) - (k : ℤ) := by
      omega
    have ht : ((i : ℤ) - (k : ℤ)).toNat = i - k := by
      omega
    simp only [h0, if_true, ht, listRange_map_prod]
  · unfold JacobiBase.derivative_jacobi JacobiBase.jacobi
    rcases Nat.eq_zero_or_pos k with hk | hk
    · subst hk
      simp [hiN]
    · have hik : i - k < N := lt_of_le_of_lt (Nat.sub_le i k) hiN
      simp only [hk, if_true, hki, hiN, and_self, hik, listRange_map_prod]

/-- Concrete check of `jacobi_derivative_factor` at `α = β = 0`, `x = 1`,
`i = 2`, `k = 1`, `N = 3`: both entry points give
`(2+0+0+1)/2 · J_1^{(1,1)}(1) = 3/2 · 2 = 3`. -/
theorem jacobi_derivative_factor_checked :
    JacobiBase.evaluate_basis_derivative 0 0 1 2 1 = 3
      ∧ JacobiBase.derivative_jacobi 3 1 0 0 1 2 = 3 := by
  have h := jacobi_derivative_factor 0 0 1 2 1 3 (by decide) (by decide)
  constructor
  · rw [h.1]
    norm_num [jacobiRec, Finset.prod_range_succ]
  · rw [h.2]
    norm_num [jacobiRec, Finset.prod_range_succ]

/-- C4 counterexample: `JacobiBase.evaluate_basis_derivative` does invoke the
underlying polynomial evaluator with a negative index — at `i = 0`, `k = 1`
the degree argument it passes is `0 - 1 = -1 < 0`, contradicting the claim
that the evaluator is never invoked with a negative index. -/
theorem evaluate_basis_derivative_negative_degree_call :
    evaluate_basis_derivative_degree_arg 0 1 = -1
      ∧ evaluate_basis_derivative_degree_arg 0 1 < 0 := by
  decide

/-- C4 amended: for `i < k` both entry points return exactly zero;
`derivative_jacobi` never forms a negative index (columns below `k` keep
their zero initialisation), while `evaluate_basis_derivative` passes the
negative degree `i - k` to the underlying evaluator, which returns zero for
a negative degree. -/
theorem jacobi_derivative_below_order (N : ℕ) (α β x : ℚ) (i k : ℕ)
    (h : i < k) :
    JacobiBase.derivative_jacobi N x α β k i = 0
      ∧ JacobiBase.evaluate_basis_derivative α β x i k = 0
      ∧ evaluate_basis_derivative_degree_arg i k < 0 := by
  refine ⟨?_, ?_, ?_⟩
  · unfold JacobiBase.derivative_jacobi
    have hk : 0 < k := lt_of_le_of_lt (Nat.zero_le i) h
    have hki : ¬ (k ≤ i ∧ i < N) := fun hc => absurd hc.1 (not_le_of_lt h)
    simp only [hk, if_true, hki, if_false]
  · unfold JacobiBase.evaluate_basis_derivative eval_jacobiInt
      evaluate_basis_derivative_degree_arg
    have h0 : ¬ ((0 : ℤ) ≤ (i : ℤ) - (k : ℤ)) := by
      omega
    simp [h0]
  · unfold evaluate_basis_derivative_degree_arg
    omega

/-- Concrete check of `jacobi_derivative_below_order` at `N = 4`,
`α = β = 0`, `x = 2`, `i = 0`, `k = 1`. -/
theorem jacobi_derivative_below_order_checked :
    JacobiBase.derivative_jacobi 4 2 0 0 1 0 = 0
      ∧ JacobiBase.evaluate_basis_derivative 0 0 2 0 1 = 0
      ∧ evaluate_basis_derivative_degree_arg 0 1 < 0 :=
  jacobi_derivative_below_order 4 0 0 2 0 1 (by decide)

/-- A Python boundary-condition argument: a tuple of numbers or a string
tag (the two shapes accepted or rejected by the constructors in
src/shenfun/jacobi/bases.py). -/
inductive PyBC where
  | tuple : List ℚ → PyBC
  | tag : String → PyBC
deriving DecidableEq

/-- The state a `ShenDirichletBasis` holds after construction: size and the
Jacobi parameters fixed by `__init__` (src/shenfun/jacobi/bases.py lines
326-334 pass `alpha=-1, beta=-1` to `JacobiBase.__init__`). -/
structure ShenDirichletBasisObj where
  N : ℕ
  alpha : ℚ
  beta : ℚ
  bc : PyBC
deriving DecidableEq

/-- `ShenDirichletBasis.__init__` (src/shenfun/jacobi/bases.py lines
326-334): `assert bc in ((0, 0), 'Dirichlet')`; on success the object stores
`alpha = beta = -1`. The subsequent `BoundaryValues` and `plan` calls
(repository code not under src) are modelled as non-failing. -/
def ShenDirichletBasis.init (N : ℕ) (bc : PyBC) : Option ShenDirichletBasisObj :=
  if bc = PyBC.tuple [0, 0] ∨ bc = PyBC.tag "Dirichlet" then
    some ⟨N, -1, -1, bc⟩
  else
    none

/-- The state a `ShenBiharmonicBasis` holds after construction
(src/shenfun/jacobi/bases.py lines 486-492 pass `alpha=-2, beta=-2`). -/
structure ShenBiharmonicBasisObj where
  N : ℕ
  alpha : ℚ
  beta : ℚ
  bc : PyBC
deriving DecidableEq

/-- `ShenBiharmonicBasis.__init__` (src/shenfun/jacobi/bases.py lines
486-492): `assert bc in ((0, 0, 0, 0), 'Biharmonic')`; stores
`alpha = beta = -2`. -/
def ShenBiharmonicBasis.init (N : ℕ) (bc : PyBC) : Option ShenBiharmonicBasisObj :=
  if bc = PyBC.tuple [0, 0, 0, 0] ∨ bc = PyBC.tag "Biharmonic" then
    some ⟨N, -2, -2, bc⟩
  else
    none

/-- The state a `ShenOrder6Basis` holds after construction
(src/shenfun/jacobi/bases.py lines 616-621 pass `alpha=-3, beta=-3`; the
constructor takes no boundary-value tuple and performs no assert). -/
structure ShenOrder6BasisObj where
  N : ℕ
  alpha : ℚ
  beta : ℚ
deriving DecidableEq

/-- `ShenOrder6Basis.__init__` (src/shenfun/jacobi/bases.py lines 616-621). -/
def ShenOrder6Basis.init (N : ℕ) : ShenOrder6BasisObj :=
  ⟨N, -3, -3⟩

/-- C5: constructing a boundary-condition Jacobi basis succeeds exactly for
the all-zero tuple of the right arity or the matching string tag —
`ShenDirichletBasis` accepts `(0,0)` or `"Dirichlet"` and nothing else (in
particular `(1,0)` fails), `ShenBiharmonicBasis` accepts `(0,0,0,0)` or
`"Biharmonic"` and nothing else. -/
theorem bc_accepted_values (N : ℕ) (bc : PyBC) :
    ((ShenDirichletBasis.init N bc).isSome
        ↔ (bc = PyBC.tuple [0, 0] ∨ bc = PyBC.tag "Dirichlet"))
      ∧ ShenDirichletBasis.init N (PyBC.tuple [1, 0]) = none
      ∧ ((ShenBiharmonicBasis.init N bc).isSome
        ↔ (bc = PyBC.tuple [0, 0, 0, 0] ∨ bc = PyBC.tag "Biharmonic")) := by
  refine ⟨?_, ?_, ?_⟩
  · unfold ShenDirichletBasis.init
    split <;> simp_all
  · unfold ShenDirichletBasis.init
    have hno : ¬ (PyBC.tuple [1, 0] = PyBC.tuple [0, 0]
        ∨ PyBC.tuple [1, 0] = PyBC.tag "Dirichlet") := by
      decide
    simp [hno]
  · unfold ShenBiharmonicBasis.init
    split <;> simp_all

/-- `ShenDirichletBasis.points_and_weights` (src/shenfun/jacobi/bases.py
lines 409-416): calls `roots_jacobi(N, self.alpha+1, self.beta+1)`. The
Gauss-Jacobi rule `scipy.special.roots_jacobi` is external and abstracted
as the parameter `R`; the claim is about the parameters handed to it. -/
def ShenDirichletBasis.points_and_weights (b : ShenDirichletBasisObj)
    (R : ℕ → ℚ → ℚ → List ℚ × List ℚ) : List ℚ × List ℚ :=
  R b.N (b.alpha + 1) (b.beta + 1)

/-- `ShenBiharmonicBasis.points_and_weights` (src/shenfun/jacobi/bases.py
lines 540-547): calls `roots_jacobi(N, 0, 0)` (literal zeros, not the
stored parameters). -/
def ShenBiharmonicBasis.points_and_weights (b : ShenBiharmonicBasisObj)
    (R : ℕ → ℚ → ℚ → List ℚ × List ℚ) : List ℚ × List ℚ :=
  R b.N 0 0

/-- `ShenOrder6Basis.points_and_weights` (src/shenfun/jacobi/bases.py lines
665-672): calls `roots_jacobi(N, 0, 0)`. -/
def ShenOrder6Basis.points_and_weights (b : ShenOrder6BasisObj)
    (R : ℕ → ℚ → ℚ → List ℚ × List ℚ) : List ℚ × List ℚ :=
  R b.N 0 0

/-- C10: every constructed boundary-condition Jacobi basis asks the
Gauss-Jacobi rule for shifted parameters, not its stored `(α, β)`: the
Dirichlet basis stores `α = β = -1` and queries `(α+1, β+1) = (0, 0)`; the
Biharmonic basis stores `α = β = -2` and the 6th-order basis stores
`α = β = -3`, and both query `(0, 0)`. -/
theorem points_and_weights_shifted_params
    (R : ℕ → ℚ → ℚ → List ℚ × List ℚ) (N : ℕ) (bcD bcB : PyBC)
    (bD : ShenDirichletBasisObj) (bB : ShenBiharmonicBasisObj)
    (hD : ShenDirichletBasis.init N bcD = some bD)
    (hB : ShenBiharmonicBasis.init N bcB = some bB) :
    bD.alpha = -1 ∧ bD.beta = -1
      ∧ ShenDirichletBasis.points_and_weights bD R = R N (bD.alpha + 1) (bD.beta + 1)
      ∧ ShenDirichletBasis.points_and_weights bD R = R N 0 0
      ∧ bB.alpha = -2 ∧ bB.beta = -2
      ∧ ShenBiharmonicBasis.points_and_weights bB R = R N 0 0
      ∧ (ShenOrder6Basis.init N).alpha = -3 ∧ (ShenOrder6Basis.init N).beta = -3
      ∧ ShenOrder6Basis.points_and_weights (ShenOrder6Basis.init N) R = R N 0 0 := by
  unfold ShenDirichletBasis.init at hD
  unfold ShenBiharmonicBasis.init at hB
  split at hD
  case isFalse => exact absurd hD (by simp)
  case isTrue =>
    split at hB
    case isFalse => exact absurd hB (by simp)
    case isTrue =>
      cases hD
      cases hB
      unfold ShenDirichletBasis.points_and_weights
        ShenBiharmonicBasis.points_and_weights
        ShenOrder6Basis.points_and_weights ShenOrder6Basis.init
      norm_num

/-- Concrete check of `points_and_weights_shifted_params` with `N = 8` and
the string boundary-condition tags. -/
theorem points_and_weights_shifted_params_checked :
    (ShenDirichletBasis.init 8 (PyBC.tag "Dirichlet")).isSome = true
      ∧ ∀ R : ℕ → ℚ → ℚ → List ℚ × List ℚ,
        ShenDirichletBasis.points_and_weights ⟨8, -1, -1, PyBC.tag "Dirichlet"⟩ R
          = R 8 0 0 := by
  refine ⟨by decide, fun R => ?_⟩
  exact (points_and_weights_shifted_params R 8 (PyBC.tag "Dirichlet")
    (PyBC.tag "Biharmonic") ⟨8, -1, -1, PyBC.tag "Dirichlet"⟩
    ⟨8, -2, -2, PyBC.tag "Biharmonic"⟩ (by decide) (by decide)).2.2.2.1

/-- `ShenDirichletBasis.slice` (src/shenfun/jacobi/bases.py lines 363-364):
`slice(0, N-2)`, embedded as the pair (start, stop). -/
def ShenDirichletBasis.slice (N : ℕ) : ℕ × ℕ :=
  (0, N - 2)

/-- `ShenBiharmonicBasis.slice` (src/shenfun/jacobi/bases.py lines 498-499):
`slice(0, N-4)`. -/
def ShenBiharmonicBasis.slice (N : ℕ) : ℕ × ℕ :=
  (0, N - 4)

/-- `ShenOrder6Basis.slice` (src/shenfun/jacobi/bases.py lines 627-628):
`slice(0, N-6)`. -/
def ShenOrder6Basis.slice (N : ℕ) : ℕ × ℕ :=
  (0, N - 6)

/-- `ShenDirichletBasis.evaluate_basis` (src/shenfun/jacobi/bases.py lines
388-398): the closed form `(1-x²)·J_i^{(1,1)}(x)` of `sympy_basis`,
numerically evaluated (sympy lambdify is external; `sp.jacobi` denotes the
same polynomial family as `jacobiRec`). -/
def ShenDirichletBasis.evaluate_basis (x : ℚ) (i : ℕ) : ℚ :=
  (1 - x ^ 2) * jacobiRec 1 1 x i

/-- `ShenDirichletBasis.evaluate_basis_all` (src/shenfun/jacobi/bases.py
lines 400-407), one evaluation point: a zero-initialised row of length `N`
whose columns `i < N-2` are filled by `evaluate_basis`. -/
def ShenDirichletBasis.evaluate_basis_all (N : ℕ) (x : ℚ) (i : ℕ) : ℚ :=
  if i < N - 2 then ShenDirichletBasis.evaluate_basis x i else 0

/-- `ShenDirichletBasis.evaluate_basis_derivative_all`
(src/shenfun/jacobi/bases.py lines 366-372), one evaluation point: a
zero-initialised row of length `N` whose columns `i < N-2` are filled by
`evaluate_basis_derivative(x, i, k)`. The latter evaluates the `k`-th
symbolic sympy derivative of the basis function (external), abstracted as
the parameter `D x i k`. -/
def ShenDirichletBasis.evaluate_basis_derivative_all
    (D : ℚ → ℕ → ℕ → ℚ) (N : ℕ) (x : ℚ) (k i : ℕ) : ℚ :=
  if i < N - 2 then D x i k else 0

/-- `ShenBiharmonicBasis.evaluate_basis_all` (src/shenfun/jacobi/bases.py
lines 529-534), one evaluation point: `V[:, :-4] = jacobi(x, 2, 2, N-4) *
(1-x²)²`, remaining columns zero. -/
def ShenBiharmonicBasis.evaluate_basis_all (N : ℕ) (x : ℚ) (i : ℕ) : ℚ :=
  if i < N - 4 then jacobiRec 2 2 x i * (1 - x ^ 2) ^ 2 else 0

/-- `ShenBiharmonicBasis.evaluate_basis_derivative_all`
(src/shenfun/jacobi/bases.py lines 504-510), one evaluation point: columns
`i < N-4` filled by the sympy-derivative evaluator `D`, others zero. -/
def ShenBiharmonicBasis.evaluate_basis_derivative_all
    (D : ℚ → ℕ → ℕ → ℚ) (N : ℕ) (x : ℚ) (k i : ℕ) : ℚ :=
  if i < N - 4 then D x i k else 0

/-- `ShenOrder6Basis.evaluate_basis_all` (src/shenfun/jacobi/bases.py lines
658-663), one evaluation point: `V[:, :-6] = jacobi(x, 3, 3, N-6) *
(1-x²)³`, remaining columns zero. -/
def ShenOrder6Basis.evaluate_basis_all (N : ℕ) (x : ℚ) (i : ℕ) : ℚ :=
  if i < N - 6 then jacobiRec 3 3 x i * (1 - x ^ 2) ^ 3 else 0

/-- `ShenOrder6Basis.evaluate_basis_derivative_all`
(src/shenfun/jacobi/bases.py lines 643-649), one evaluation point: columns
`i < N-6` filled by the sympy-derivative evaluator `D`, others zero. -/
def ShenOrder6Basis.evaluate_basis_derivative_all
    (D : ℚ → ℕ → ℕ → ℚ) (N : ℕ) (x : ℚ) (k i : ℕ) : ℚ :=
  if i < N - 6 then D x i k else 0

/-- C7: each boundary-condition Jacobi basis of size `N` has
`slice() = [0, N-c)` with `c = 2, 4, 6` constraints, and for every point
`x`, derivative order `k` and every column in the last `c` positions, both
`evaluate_basis_all` and `evaluate_basis_derivative_all` (for any
sympy-derivative evaluators `D₁ D₂ D₃`) hold an exact zero there. -/
theorem bc_slice_trailing_columns (D₁ D₂ D₃ : ℚ → ℕ → ℕ → ℚ)
    (N : ℕ) (x : ℚ) (k : ℕ) (i₂ i₄ i₆ : ℕ)
    (h₂ : N - 2 ≤ i₂) (h₄ : N - 4 ≤ i₄) (h₆ : N - 6 ≤ i₆) :
    ShenDirichletBasis.slice N = (0, N - 2)
      ∧ ShenBiharmonicBasis.slice N = (0, N - 4)
      ∧ ShenOrder6Basis.slice N = (0, N - 6)
      ∧ ShenDirichletBasis.evaluate_basis_all N x i₂ = 0
      ∧ ShenDirichletBasis.evaluate_basis_derivative_all D₁ N x k i₂ = 0
      ∧ ShenBiharmonicBasis.evaluate_basis_all N x i₄ = 0
      ∧ ShenBiharmonicBasis.evaluate_basis_derivative_all D₂ N x k i₄ = 0
      ∧ ShenOrder6Basis.evaluate_basis_all N x i₆ = 0
      ∧ ShenOrder6Basis.evaluate_basis_derivative_all D₃ N x k i₆ = 0 := by
  unfold ShenDirichletBasis.slice ShenBiharmonicBasis.slice
    ShenOrder6Basis.slice ShenDirichletBasis.evaluate_basis_all
    ShenDirichletBasis.evaluate_basis_derivative_all
    ShenBiharmonicBasis.evaluate_basis_all
    ShenBiharmonicBasis.evaluate_basis_derivative_all
    ShenOrder6Basis.evaluate_basis_all
    ShenOrder6Basis.evaluate_basis_derivative_all
  simp [Nat.not_lt.mpr h₂, Nat.not_lt.mpr h₄, Nat.not_lt.mpr h₆]

/-- Concrete check of `bc_slice_trailing_columns` at `N = 8`, `x = 1/2`,
`k = 1`, columns `6`, `4`, `2` (the first constrained column of each
basis), with an arbitrary nonzero derivative evaluator. -/
theorem bc_slice_trailing_columns_checked :
    ShenDirichletBasis.slice 8 = (0, 6)
      ∧ ShenDirichletBasis.evaluate_basis_all 8 (1 / 2) 6 = 0
      ∧ ShenBiharmonicBasis.evaluate_basis_all 8 (1 / 2) 4 = 0
      ∧ ShenOrder6Basis.evaluate_basis_all 8 (1 / 2) 2 = 0 := by
  have h := bc_slice_trailing_columns (fun _ _ _ => 1) (fun _ _ _ => 1)
    (fun _ _ _ => 1) 8 (1 / 2) 1 6 4 2 (by decide) (by decide) (by decide)
  exact ⟨h.1, h.2.2.2.1, h.2.2.2.2.2.1, h.2.2.2.2.2.2.2.1⟩

/-- A `BasisFunction` leaf as the `Expr` algebra sees it: the Python object
identity (`id(...)`), the function space it binds (compared with `==` in
the source, embedded as an identifier), and the argument tag
(0 = test, 1 = trial, 2 = known function). -/
structure PyLeaf where
  objId : ℕ
  spaceId : ℕ
  argument : ℕ
deriving DecidableEq

/-- An `Expr` (src/shenfun/forms/arguments.py): the leaf `_basis`, the
resolved `_basis.base` leaf (the leaf itself when it has no base), and the
three co-indexed arrays `terms` (component × term × per-axis order),
`scales` (component × term) and `indices` (component × term). -/
structure PyExpr where
  basis : PyLeaf
  base : PyLeaf
  terms : List (List (List ℕ))
  scales : List (List ℚ)
  indices : List (List ℕ)
deriving DecidableEq

/-- `Expr.num_components` (src/shenfun/forms/arguments.py lines 407-409):
`terms.shape[0]`. -/
def PyExpr.num_components (e : PyExpr) : ℕ :=
  e.terms.length

/-- `Expr.argument` (src/shenfun/forms/arguments.py lines 376-379):
delegates to the leaf. -/
def PyExpr.argument (e : PyExpr) : ℕ :=
  e.basis.argument

/-- `Expr.__add__` (src/shenfun/forms/arguments.py lines 559-574): asserts
equal `num_components()`, equal `function_space()`, equal `argument`; keeps
`self._basis` when the two leaves are the same object, otherwise asserts
that the two resolved base leaves are the same object and rebinds to the
base; concatenates `terms`/`scales`/`indices` along the term axis
(`np.concatenate(..., axis=1)` = per-component append). -/
def PyExpr.add (e a : PyExpr) : Option PyExpr :=
  if e.num_components = a.num_components then
    if e.basis.spaceId = a.basis.spaceId then
      if e.basis.argument = a.basis.argument then
        if e.basis.objId = a.basis.objId then
          some ⟨e.basis, e.base,
            List.zipWith (fun s t => s ++ t) e.terms a.terms,
            List.zipWith (fun s t => s ++ t) e.scales a.scales,
            List.zipWith (fun s t => s ++ t) e.indices a.indices⟩
        else if e.base.objId = a.base.objId then
          some ⟨e.base, e.base,
            List.zipWith (fun s t => s ++ t) e.terms a.terms,
            List.zipWith (fun s t => s ++ t) e.scales a.scales,
            List.zipWith (fun s t => s ++ t) e.indices a.indices⟩
        else none
      else none
    else none
  else none

/-- `Expr.__sub__` (src/shenfun/forms/arguments.py lines 594-609): the same
checks as `__add__` except that the function-space assert is commented out;
the right operand's scales are negated before concatenation. -/
def PyExpr.sub (e a : PyExpr) : Option PyExpr :=
  if e.num_components = a.num_components then
    if e.basis.argument = a.basis.argument then
      if e.basis.objId = a.basis.objId then
        some ⟨e.basis, e.base,
          List.zipWith (fun s t => s ++ t) e.terms a.terms,
          List.zipWith (fun s t => s ++ t.map (fun q => -q)) e.scales a.scales,
          List.zipWith (fun s t => s ++ t) e.indices a.indices⟩
      else if e.base.objId = a.base.objId then
        some ⟨e.base, e.base,
          List.zipWith (fun s t => s ++ t) e.terms a.terms,
          List.zipWith (fun s t => s ++ t.map (fun q => -q)) e.scales a.scales,
          List.zipWith (fun s t => s ++ t) e.indices a.indices⟩
      else none
    else none
  else none

/-- C6: `Expr.__add__` succeeds exactly when the operands have identical
`num_components()`, identical argument tag, identical function space, and
either the same basis object or the same resolved base leaf object;
`Expr.__sub__` performs the same checks minus the function-space equality;
on success both concatenate `terms`/`scales`/`indices` along the term axis
with the right operand's scales negated for subtraction. -/
theorem expr_add_sub_rules (e a : PyExpr) :
    ((e.add a).isSome ↔
        (e.num_components = a.num_components ∧ e.argument = a.argument
          ∧ e.basis.spaceId = a.basis.spaceId
          ∧ (e.basis.objId = a.basis.objId ∨ e.base.objId = a.base.objId)))
      ∧ ((e.sub a).isSome ↔
        (e.num_components = a.num_components ∧ e.argument = a.argument
          ∧ (e.basis.objId = a.basis.objId ∨ e.base.objId = a.base.objId)))
      ∧ (e.add a).map PyExpr.terms =
        (if (e.num_components = a.num_components ∧ e.argument = a.argument
            ∧ e.basis.spaceId = a.basis.spaceId
            ∧ (e.basis.objId = a.basis.objId ∨ e.base.objId = a.base.objId)) then
          some (List.zipWith (fun s t => s ++ t) e.terms a.terms)
        else none)
      ∧ (e.add a).map PyExpr.scales =
        (if (e.num_components = a.num_components ∧ e.argument = a.argument
            ∧ e.basis.spaceId = a.basis.spaceId
            ∧ (e.basis.objId = a.basis.objId ∨ e.base.objId = a.base.objId)) then
          some (List.zipWith (fun s t => s ++ t) e.scales a.scales)
        else none)
      ∧ (e.add a).map PyExpr.indices =
        (if (e.num_components = a.num_components ∧ e.argument = a.argument
            ∧ e.basis.spaceId = a.basis.spaceId
            ∧ (e.basis.objId = a.basis.objId ∨ e.base.objId = a.base.objId)) then
          some (List.zipWith (fun s t => s ++ t) e.indices a.indices)
        else none)
      ∧ (e.sub a).map PyExpr.terms =
        (if (e.num_components = a.num_components ∧ e.argument = a.argument
            ∧ (e.basis.objId = a.basis.objId ∨ e.base.objId = a.base.objId)) then
          some (List.zipWith (fun s t => s ++ t) e.terms a.terms)
        else none)
      ∧ (e.sub a).map PyExpr.scales =
        (if (e.num_components = a.num_components ∧ e.argument = a.argument
            ∧ (e.basis.objId = a.basis.objId ∨ e.base.objId = a.base.objId)) then
          some (List.zipWith (fun s t => s ++ t.map (fun q => -q)) e.scales a.scales)
        else none)
      ∧ (e.sub a).map PyExpr.indices =
        (if (e.num_components = a.num_components ∧ e.argument = a.argument
            ∧ (e.basis.objId = a.basis.objId ∨ e.base.objId = a.base.objId)) then
          some (List.zipWith (fun s t => s ++ t) e.indices a.indices)
        else none) := by
  unfold PyExpr.add PyExpr.sub PyExpr.argument
  refine ⟨?_, ?_, ?_, ?_, ?_, ?_, ?_, ?_⟩ <;>
    split_ifs <;> simp_all

/-- A shenfun function space as the leaf algebra sees it: a 1-D
`SpectralBase`, a scalar `TensorProductSpace` over 1-D bases, or a
composite `MixedTensorProductSpace` over subspaces. The space classes live
in repository files not under src; their behaviour here is Modelled from
the spec (§3 data model) and from their use inside src (`Expr.eval`
subscripts a scalar space by axis, src/shenfun/forms/arguments.py line
462). -/
inductive PySpace where
  | spectral : ℕ → PySpace
  | tensor : List PySpace → PySpace
  | mixed : List PySpace → PySpace

mutual

/-- Modelled from the spec (§3): the rank of a space — 0 for a scalar 1-D
basis or `TensorProductSpace`, positive for a composite space. -/
def PySpace.rank : PySpace → ℕ
  | PySpace.spectral _ => 0
  | PySpace.tensor _ => 0
  | PySpace.mixed _ => 1

/-- Modelled from the spec (§3): `num_components()` — 1 for a scalar space,
the sum over subspaces for a composite space. -/
def PySpace.num_components : PySpace → ℕ
  | PySpace.spectral _ => 1
  | PySpace.tensor _ => 1
  | PySpace.mixed ss => PySpace.sumComponents ss

/-- Sum of `num_components` over a list of subspaces. -/
def PySpace.sumComponents : List PySpace → ℕ
  | [] => 0
  | s :: rest => PySpace.num_components s + PySpace.sumComponents rest

end

/-- Modelled from the spec and from src usage (`Expr.eval`,
src/shenfun/forms/arguments.py line 462, subscripts a scalar tensor space
by axis): `space[i]` returns the i-th 1-D basis of a `TensorProductSpace`,
the i-th subspace of a `MixedTensorProductSpace`, and a 1-D basis only
supports index 0 (yielding itself); an out-of-range index is an error. -/
def PySpace.getitem : PySpace → ℕ → Option PySpace
  | PySpace.spectral n, i => if i = 0 then some (PySpace.spectral n) else none
  | PySpace.tensor bs, i => bs.get? i
  | PySpace.mixed ss, i => ss.get? i

/-- The offset loop of `BasisFunction.__getitem__`
(src/shenfun/forms/arguments.py lines 712-714):
`for k in range(i): offset += self._space[k].num_components()`, failing if
any subscript fails. -/
def PySpace.offsetSum (s : PySpace) : ℕ → Option ℕ
  | 0 => some 0
  | i + 1 =>
    (PySpace.offsetSum s i).bind fun acc =>
      (s.getitem i).map fun c => acc + c.num_components

/-- A `BasisFunction` leaf object (src/shenfun/forms/arguments.py lines
634-657): bound space, component index, offset, and the identity of its
base (undifferentiated) leaf. -/
structure PyBasisFunction where
  space : PySpace
  index : ℕ
  offset : ℕ
  baseId : ℕ

/-- `BasisFunction.__getitem__` (src/shenfun/forms/arguments.py lines
707-716). The source contains no rank check — the line
`assert self.rank > 0` is commented out — so the method unconditionally
builds `BasisFunction(self._space[i], i, basespace, offset, base)` with
`offset = self._offset + sum(self._space[k].num_components() for k < i)`. -/
def PyBasisFunction.getitem (t : PyBasisFunction) (i : ℕ) : Option PyBasisFunction :=
  match t.space.getitem i, PySpace.offsetSum t.space i with
  | some sp, some off => some ⟨sp, i, t.offset + off, t.baseId⟩
  | _, _ => none

/-- C8 counterexample: indexing a leaf over a rank-0 (scalar) space is not
an error — for a leaf bound to a scalar two-axis `TensorProductSpace`,
`leaf[1]` returns a new leaf (bound to the second 1-D basis) instead of
failing. -/
theorem rank0_getitem_returns_leaf :
    PySpace.rank (PySpace.tensor [PySpace.spectral 0, PySpace.spectral 1]) = 0
      ∧ ((PyBasisFunction.mk
            (PySpace.tensor [PySpace.spectral 0, PySpace.spectral 1]) 0 0 7).getitem
          1).isSome = true := by
  decide

/-- C8 amended: `BasisFunction.__getitem__` performs no rank check (the
`assert self.rank > 0` of the source is commented out); over a scalar
(rank-0) `TensorProductSpace` with axis list `bs`, `leaf[i]` for any
`i < len(bs)` succeeds and returns the leaf bound to `bs[i]` with offset
increased by the component counts of the preceding axes, rather than
failing. -/
theorem getitem_without_rank_check (bs : List PySpace) (idx off bid i : ℕ)
    (h : i < bs.length) :
    PySpace.rank (PySpace.tensor bs) = 0
      ∧ (PyBasisFunction.mk (PySpace.tensor bs) idx off bid).getitem i =
        some ⟨bs.get ⟨i, h⟩, i,
          off + ((bs.take i).map PySpace.num_components).sum, bid⟩ := by
  have hoff : ∀ m : ℕ, m ≤ bs.length →
      PySpace.offsetSum (PySpace.tensor bs) m =
        some (((bs.take m).map PySpace.num_components).sum) := by
    intro m
    induction m with
    | zero => intro _; simp [PySpace.offsetSum]
    | succ n ih =>
      intro hm
      have hn : n < bs.length := Nat.lt_of_succ_le hm
      have hget : PySpace.getitem (PySpace.tensor bs) n = some (bs.get ⟨n, hn⟩) := by
        simp [PySpace.getitem, List.get?_eq_get hn]
      have htake : ((bs.take (n + 1)).map PySpace.num_components).sum
          = ((bs.take n).map PySpace.num_components).sum
            + (bs.get ⟨n, hn⟩).num_components := by
        rw [List.take_succ, List.map_append, List.sum_append,
          List.getElem?_eq_getElem hn]
        simp
      rw [PySpace.offsetSum, ih (Nat.le_of_lt hn), hget, htake]
      rfl
  constructor
  · rfl
  · unfold PyBasisFunction.getitem
    have hget : PySpace.getitem (PySpace.tensor bs) i = some (bs.get ⟨i, h⟩) := by
      simp [PySpace.getitem, List.get?_eq_get h]
    rw [hget, hoff i (Nat.le_of_lt h)]

/-- Concrete check of `getitem_without_rank_check` on a scalar two-axis
space: `leaf[1]` yields the second axis basis with offset `0 + 1`. -/
theorem getitem_without_rank_check_checked :
    PySpace.rank (PySpace.tensor [PySpace.spectral 3, PySpace.spectral 4]) = 0
      ∧ (PyBasisFunction.mk
            (PySpace.tensor [PySpace.spectral 3, PySpace.spectral 4]) 0 0 9).getitem 1 =
        some ⟨PySpace.spectral 4, 1, 1, 9⟩ :=
  getitem_without_rank_check [PySpace.spectral 3, PySpace.spectral 4] 0 0 9 1
    (by decide)

/-- Folding `acc + f b` over a list starting from `init` equals `init` plus
the sum of the mapped list (the accumulation `output_array += sc*work` of
the evaluator loop versus the claim's sum over terms). -/
theorem foldl_add_eq_sum {α : Type} (l : List α) (f : α → ℚ) (init : ℚ) :
    l.foldl (fun acc t => acc + f t) init = init + (l.map f).sum := by
  induction l generalizing init with
  | nil => simp
  | cons hd tl ih => simp [List.foldl_cons, ih, add_assoc]

/-- The 1-D function space data that `Expr.eval` consumes
(src/shenfun/forms/arguments.py lines 425-501, 1-D branch): the mode count,
the affine reference-domain map and its Jacobian factor
(`map_reference_domain` / `domain_factor`, repository code not under src,
Modelled from the spec §4.4 as abstract data), the
`evaluate_basis_derivative_all` matrix entry `ebdAll x k i` (order `k`,
column `i`), and the dtype tag of `forward.input_array`. -/
structure Space1D where
  N : ℕ
  domainFactor : ℚ
  mapRef : ℚ → ℚ
  ebdAll : ℚ → ℕ → ℕ → ℚ
  forwardInputDtype : ℕ

/-- The dot product `np.dot(P, bv)` of a matrix row with the coefficient
array, over the `N` columns. -/
def dotRow (N : ℕ) (P u : ℕ → ℚ) : ℚ :=
  ∑ i in Finset.range N, P i * u i

/-- `Expr.eval` on a 1-D space (src/shenfun/forms/arguments.py lines
425-501): one component whose terms are pairs of a per-axis derivative
order `k` and a scale; per term the code maps the points to the reference
domain, takes `P = evaluate_basis_derivative_all(xx, k)`, multiplies by
`domain_factor()**k` only when the factor differs from 1, forms
`work = np.dot(P, bv)` and accumulates `output += sc*work`. Scales may be
coordinate functions (the sympy lambdify branch), embedded as `ℚ → ℚ`
applied at the point. The result is the pair (output dtype, value at the
point); the dtype is that of `V.forward.input_array` (line 444). -/
def exprEval1D (S : Space1D) (terms : List ℕ) (scales : List (ℚ → ℚ))
    (u : ℕ → ℚ) (x : ℚ) : ℕ × ℚ :=
  let value :=
    (terms.zip scales).foldl
      (fun acc t =>
        acc + t.2 x * dotRow S.N
          (fun i =>
            let p := S.ebdAll (S.mapRef x) t.1 i
            if S.domainFactor = 1 then p else p * S.domainFactor ^ t.1) u)
      0
  (S.forwardInputDtype, value)

/-- C9: on a 1-D space, `Expr.eval` returns the sum over terms of the
term's scale (evaluated at the point) times the dot product of the
derivative-order-`k` Vandermonde row at the reference-mapped point — scaled
by the domain factor raised to `k` — with the coefficient array `u`, and
the output array's dtype is the space's forward-transform input dtype. -/
theorem expr_eval_1d_dot (S : Space1D) (terms : List ℕ)
    (scales : List (ℚ → ℚ)) (u : ℕ → ℚ) (x : ℚ) :
    exprEval1D S terms scales u x =
      (S.forwardInputDtype,
        ((terms.zip scales).map
          (fun t => t.2 x * ∑ i in Finset.range S.N,
            (S.domainFactor ^ t.1 * S.ebdAll (S.mapRef x) t.1 i) * u i)).sum) := by
  unfold exprEval1D
  refine congrArg (Prod.mk S.forwardInputDtype) ?_
  rw [foldl_add_eq_sum, zero_add]
  congr 1
  congr 1
  funext t
  congr 1
  unfold dotRow
  refine Finset.sum_congr rfl fun i _ => ?_
  by_cases hdf : S.domainFactor = 1
  · simp [hdf]
  · simp only [hdf, if_false]
    ring
